import Mathlib

/-!
Shallow embedding of the kana engine and the sentence pipeline of the
`vocab` repository (`src/vocab/inflections.py` and
`src/vocab/sentence_parser.py`), together with theorems settling the
frozen claims about them.

Python strings are modelled as `List Char`, Python dicts as association
lists with dict insertion semantics, raised exceptions as the
`Except PyErr` monad, and `None`-able values as `Option`.
-/

deriving instance DecidableEq for Except

namespace Vocab

/-- Python exceptions raised by the embedded code.  Each `raise` site of the
source is mapped to one constructor; the comments give the exception type
and message used at that site. -/
inductive PyErr where
  | verbTooShort                        -- ValueError "Verb is empty or too short"
  | invalidVerbEnding                   -- ValueError "Final kana letter is no valid verb ending"
  | noIchidanEnding (verb : List Char)  -- ValueError "verb ... has no ichidan ending"
  | inflectionNotNone                   -- ValueError of the applied-inflections check
  | invalidTeEnding (c : Char)          -- ValueError "invalid verb ending: ..."
  | endingNotAiueo                      -- ValueError "Ending must be one of aiueo"
  | emptyRomaji                         -- ValueError "empty romaji"
  | cannotTransform (s : List Char)     -- ValueError "Cannot transform ... to a kana letter"
  | parseNoMatch                        -- ValueError "no match" (in parse)
  | invalidState                        -- ValueError "invalid state" (in group)
  | keyError                            -- Python KeyError (failed dict lookup)
  | indexError                          -- Python IndexError (out-of-range index)
  | notImplementedError                 -- Python NotImplementedError
  | fuelExhausted                       -- modelling artifact of the lexer loop, proved unreachable
  deriving DecidableEq

/-- A regular-expression character class `[a-b...]` as a list of codepoint
ranges; `re.match` of such a class against a single character succeeds iff
the character's codepoint lies in one of the ranges. -/
def re_match_class (ranges : List (Nat × Nat)) (c : Char) : Bool :=
  ranges.any (fun r => decide (r.1 ≤ c.toNat ∧ c.toNat ≤ r.2))

/-- `JpRE.kanji = r"[㐀-䶵一-鿋豈-頻]"` (sentence_parser.py line 11); the
literal characters of the source have the codepoints 0x3400-0x4DB5,
0x4E00-0x9FCB and 0xF900-0xFA6A. -/
def JpRE.kanji : List (Nat × Nat) :=
  [(0x3400, 0x4DB5), (0x4E00, 0x9FCB), (0xF900, 0xFA6A)]

/-- `JpRE.hiragana_full = r"[ぁ-ゟ]"` (sentence_parser.py line 9),
codepoints 0x3041-0x309F.  The same class appears literally in the furigana
regex of `parse` (line 186). -/
def JpRE.hiragana_full : List (Nat × Nat) := [(0x3041, 0x309F)]

/-- `is_kanji` (sentence_parser.py lines 59-63). -/
def is_kanji (c : Char) : Bool := re_match_class JpRE.kanji c

/-- Modelled from the spec: `is_hiragana` is imported from
`vocab.sentence_parser` at inflections.py line 1, but no definition of it
appears under src/.  The spec states it is "true iff c falls in the
hiragana Unicode block range", which is the range of the repository's own
`JpRE.hiragana_full` character class. -/
def is_hiragana (c : Char) : Bool := re_match_class JpRE.hiragana_full c

/-- The character class of Python's `\s` on text strings. -/
def py_whitespace : List (Nat × Nat) :=
  [(0x09, 0x0D), (0x1C, 0x1F), (0x20, 0x20), (0x85, 0x85), (0xA0, 0xA0),
   (0x1680, 0x1680), (0x2000, 0x200A), (0x2028, 0x2029), (0x202F, 0x202F),
   (0x205F, 0x205F), (0x3000, 0x3000)]

/-- `is_whitespace` (sentence_parser.py lines 66-70). -/
def is_whitespace (c : Char) : Bool := re_match_class py_whitespace c

/-- `charseq` (sentence_parser.py lines 73-79): concatenates the characters
of the buffer, dropping whitespace characters. -/
def charseq (buf : List Char) : List Char := buf.filter (fun c => !is_whitespace c)

/-- Python's substring test `sub in s` on strings: `sub` occurs contiguously
in `s`; in particular the empty string is a substring of every string. -/
def py_substr (sub s : List Char) : Bool := s.tails.any (fun t => sub.isPrefixOf t)

/-- `HiraganaLetter.rows` (inflections.py lines 12-29): the forward table
from row tag to column tag to glyph, in source order. -/
def rows : List (String × List (String × Char)) :=
  [("-", [("a", 'あ'), ("i", 'い'), ("u", 'う'), ("e", 'え'), ("o", 'お')]),
   ("k", [("a", 'か'), ("i", 'き'), ("u", 'く'), ("e", 'け'), ("o", 'こ')]),
   ("g", [("a", 'が'), ("i", 'ぎ'), ("u", 'ぐ'), ("e", 'げ'), ("o", 'ご')]),
   ("s", [("a", 'さ'), ("i", 'し'), ("u", 'す'), ("e", 'せ'), ("o", 'そ')]),
   ("z", [("a", 'ざ'), ("i", 'じ'), ("u", 'ず'), ("e", 'ぜ'), ("o", 'ぞ')]),
   ("t", [("a", 'た'), ("i", 'ち'), ("u", 'つ'), ("e", 'て'), ("o", 'と')]),
   ("d", [("a", 'だ'), ("i", 'ぢ'), ("u", 'づ'), ("e", 'で'), ("o", 'ど')]),
   ("n", [("a", 'な'), ("i", 'に'), ("u", 'ぬ'), ("e", 'ね'), ("o", 'の')]),
   ("h", [("a", 'は'), ("i", 'ひ'), ("u", 'ふ'), ("e", 'へ'), ("o", 'ほ')]),
   ("b", [("a", 'ば'), ("i", 'び'), ("u", 'ぶ'), ("e", 'べ'), ("o", 'ぼ')]),
   ("p", [("a", 'ぱ'), ("i", 'ぴ'), ("u", 'ぷ'), ("e", 'ぺ'), ("o", 'ぽ')]),
   ("m", [("a", 'ま'), ("i", 'み'), ("u", 'む'), ("e", 'め'), ("o", 'も')]),
   ("r", [("a", 'ら'), ("i", 'り'), ("u", 'る'), ("e", 'れ'), ("o", 'ろ')]),
   ("y", [("a", 'や'), ("u", 'ゆ'), ("o", 'よ')]),
   ("w", [("a", 'わ'), ("o", 'を')]),
   ("nn", [("n", 'ん')])]

/-- `HiraganaLetter.dakuten_rules` (line 37). -/
def dakuten_rules : List (String × String) := [("k", "g"), ("s", "z"), ("t", "d"), ("h", "b")]

/-- `HiraganaLetter.handakuten_rules` (line 38). -/
def handakuten_rules : List (String × String) := [("h", "p")]

/-- Python dict insertion: update in place if the key is present, else
append at the end. -/
def dict_insert [BEq α] (k : α) (v : β) : List (α × β) → List (α × β)
  | [] => [(k, v)]
  | (k0, v0) :: rest => if k0 == k then (k0, v) :: rest else (k0, v0) :: dict_insert k v rest

/-- `HiraganaLetter.by_letter` (lines 46-49): the reverse table from glyph
to (row tag, column tag), built by iterating the forward table. -/
def by_letter : List (Char × (String × String)) :=
  rows.foldl (fun acc row =>
    row.2.foldl (fun acc entry => dict_insert entry.2 (row.1, entry.1) acc) acc) []

/-- One kana glyph with its row, column and derived sound mark
(`HiraganaLetter`, fields `c`, `row`, `ending`, `dakuten`). -/
structure HiraganaLetter where
  c : Char
  row : String
  ending : String
  dakuten : Option String
  deriving DecidableEq

/-- The derived `dakuten` field of `HiraganaLetter.__init__` (lines 55-60):
"dakuten" if the row is a value of the dakuten rules, "handakuten" if a
value of the handakuten rules, else `None`. -/
def dakuten_of (row : String) : Option String :=
  if (dakuten_rules.map Prod.snd).contains row then some "dakuten"
  else if (handakuten_rules.map Prod.snd).contains row then some "handakuten"
  else none

/-- `HiraganaLetter.__init__` (lines 51-60): reverse-table lookup (an absent
glyph raises KeyError) plus the derived `dakuten` field. -/
def hiragana_init (c : Char) : Except PyErr HiraganaLetter :=
  match by_letter.lookup c with
  | none => .error .keyError
  | some (row, ending) => .ok ⟨c, row, ending, dakuten_of row⟩

/-- `HiraganaLetter.romaji` (lines 127-143). -/
def romaji (l : HiraganaLetter) : List Char :=
  if l.c = 'し' then "shi".toList
  else if l.c = 'ち' then "chi".toList
  else if l.c = 'つ' then "tsu".toList
  else if l.c = 'ふ' then "fu".toList
  else if l.c = 'じ' then "ji".toList
  else if l.c = 'ぢ' then "ji".toList
  else if l.c = 'づ' then "zu".toList
  else l.row.toList ++ l.ending.toList

/-- Lookup `rows[row][ending]` in the forward table. -/
def rows_get (row ending : String) : Option Char :=
  (rows.lookup row).bind (fun r => r.lookup ending)

/-- The romaji branch of `HiraganaLetter.from_str` (lines 70-97).  The
source wraps the final lookup-and-construct in `try/except KeyError`, so
every KeyError there (including `rows[None]` for over-long input) becomes
the ValueError "Cannot transform ...". -/
def from_str_romaji (romaji : List Char) : Except PyErr HiraganaLetter :=
  if romaji.length = 0 then .error .emptyRomaji
  else
    let re : Option (String × String) :=
      if romaji = "shi".toList then some ("s", "i")
      else if romaji = "chi".toList then some ("t", "i")
      else if romaji = "tsu".toList then some ("t", "u")
      else if romaji = "fu".toList then some ("h", "u")
      else if romaji = "ji".toList then some ("z", "i")
      else if romaji = "n".toList then some ("nn", "n")
      else match romaji with
        | [c] => some ("-", String.mk [c])
        | [c1, c2] => some (String.mk [c1], String.mk [c2])
        | _ => none
    match re with
    | none => .error (.cannotTransform romaji)
    | some (row, ending) =>
      match rows_get row ending with
      | none => .error (.cannotTransform romaji)
      | some glyph =>
        match hiragana_init glyph with
        | .error _ => .error (.cannotTransform romaji)
        | .ok l => .ok l

/-- `HiraganaLetter.from_str` (lines 65-97): a single hiragana glyph is
looked up directly (outside the `try`, so a missing glyph raises KeyError);
anything else is parsed as romaji. -/
def from_str (s : List Char) : Except PyErr HiraganaLetter :=
  match s with
  | [c] => if is_hiragana c then hiragana_init c else from_str_romaji [c]
  | _ => from_str_romaji s

/-- `HiraganaLetter.with_ending` (lines 99-103).  The guard is Python's
substring test `ending not in "aiueo"`; the final lookup is unguarded, so a
missing table entry raises KeyError. -/
def with_ending (l : HiraganaLetter) (ending : List Char) : Except PyErr HiraganaLetter :=
  if !(py_substr ending "aiueo".toList) then .error .endingNotAiueo
  else
    match rows_get l.row (String.mk ending) with
    | none => .error .keyError
    | some glyph => hiragana_init glyph

/-- `has_ichidan_ending` (inflections.py lines 146-153).  The Python result
values `True`, `False` and `None` are modelled as `some true`, `some false`
and `none`; an uncaught KeyError from the `HiraganaLetter` constructor is
an `.error`.  `verb[-1]` and `verb[-2]` are `getLast?` of the list and of
its `dropLast`. -/
def has_ichidan_ending (verb : List Char) : Except PyErr (Option Bool) :=
  if verb.length < 2 then .ok (some false)
  else
    match verb.dropLast.getLast?, verb.getLast? with
    | some c2, some c1 =>
      if is_kanji c2 && decide (c1 = 'る') then .ok none
      else
        match hiragana_init c2 with
        | .error e => .error e
        | .ok l => .ok (some (py_substr l.ending.toList "ie".toList && decide (c1 = 'る')))
    | _, _ => .error .indexError

/-- `VerbType` (inflections.py lines 5-8). -/
inductive VerbType where
  | ICHIDAN | GODAN | IRREGULAR
  deriving DecidableEq

/-- The four inflection marker objects of class `Inflections` (lines 157-160). -/
inductive InflectionTag where
  | POLITE | PAST | TE | POTENTIAL
  deriving DecidableEq

/-- The state of a constructed `Inflections` object. -/
structure Inflections where
  base_verb : List Char
  verb_type : VerbType
  applied_inflections : List InflectionTag
  inflection : Option InflectionTag
  deriving DecidableEq

/-- Python truthiness of a `True`/`False`/`None` value: `None` and `False`
are falsy, so `not x` is `True` exactly when `x` is not `True`. -/
def truthy (r : Option Bool) : Bool := match r with | some b => b | none => false

/-- `Inflections.__init__` (lines 162-183).  The ichidan guard is
`verb_type is ICHIDAN and not has_ichidan_ending(base_verb)`, with Python
truthiness applied to the tri-valued result of the check. -/
def inflections_init (base_verb : Option (List Char)) (verb_type : VerbType)
    (applied_inflections : Option (List InflectionTag)) (inflection : Option InflectionTag) :
    Except PyErr Inflections :=
  match base_verb with
  | none => .error .verbTooShort
  | some bv =>
    if bv.length ≤ 1 then .error .verbTooShort
    else
      match bv.getLast? with
      | none => .error .indexError
      | some last =>
        if !("るつうくすぶむぬぐ".toList.contains last) then .error .invalidVerbEnding
        else
          match (if verb_type = .ICHIDAN
                 then (has_ichidan_ending bv).map (fun r => !(truthy r))
                 else .ok false) with
          | .error e => .error e
          | .ok true => .error (.noIchidanEnding bv)
          | .ok false =>
            let applied := applied_inflections.getD []
            if applied.length ≠ 0 ∧ inflection ≠ none then .error .inflectionNotNone
            else .ok ⟨bv, verb_type, applied, inflection⟩

/-- `Inflections.te` (lines 185-202).  `base_verb[-1]` on an empty string
would raise IndexError; `base_verb[:-1]` is `dropLast`. -/
def te (self : Inflections) : Except PyErr (List Char) :=
  if self.verb_type = .ICHIDAN then .ok (self.base_verb.dropLast ++ "て".toList)
  else if self.verb_type = .GODAN then
    match self.base_verb.getLast? with
    | none => .error .indexError
    | some last =>
      if "うつる".toList.contains last then .ok (self.base_verb.dropLast ++ "って".toList)
      else if "く".toList.contains last then .ok (self.base_verb.dropLast ++ "いて".toList)
      else if "す".toList.contains last then .ok (self.base_verb.dropLast ++ "して".toList)
      else if "ぶむぬ".toList.contains last then .ok (self.base_verb.dropLast ++ "んで".toList)
      else if "ぐ".toList.contains last then .ok (self.base_verb.dropLast ++ "いで".toList)
      else .error (.invalidTeEnding last)
  else .error .notImplementedError

/-- The token alphabet produced by `parse` (sentence_parser.py): `Kanji`
objects, `Furigana` objects, the `SPACE` marker object, and plain one-
character strings. -/
inductive Token where
  | kanji (c : Char)
  | furigana (text : List Char)
  | space
  | chr (c : Char)
  deriving DecidableEq

/-- The match of `re.search(r"^\^(?P<furigana>[ぁ-ゟ]*)", text)` against a
text: defined only when the text starts with `^`, in which case group 0 is
the `^` plus the longest following run of hiragana-class characters and the
named group is that run. -/
def re_furigana_match (text : List Char) : Option (List Char × List Char) :=
  match text with
  | '^' :: rest =>
    some ('^' :: rest.takeWhile (fun c => re_match_class JpRE.hiragana_full c),
          rest.takeWhile (fun c => re_match_class JpRE.hiragana_full c))
  | _ => none

/-- The loop body of `parse` (sentence_parser.py lines 165-200), with an
explicit fuel argument for the `while` loop; every iteration consumes at
least one character, so `text.length` fuel suffices (proved below) and the
`fuelExhausted` branch is unreachable. -/
def parse_go : Nat → List Char → Except PyErr (List Token)
  | _, [] => .ok []
  | 0, _ :: _ => .error .fuelExhausted
  | fuel + 1, c :: rest =>
    if is_kanji c then (parse_go fuel rest).map (Token.kanji c :: ·)
    else if c = '^' then
      match re_furigana_match (c :: rest) with
      | some (matched, furi) =>
        (parse_go fuel ((c :: rest).drop matched.length)).map (Token.furigana furi :: ·)
      | none => .error .parseNoMatch
    else if c = '~' then (parse_go fuel rest).map (Token.space :: ·)
    else (parse_go fuel rest).map (Token.chr c :: ·)

/-- `parse` (sentence_parser.py lines 165-200). -/
def parse (text : List Char) : Except PyErr (List Token) := parse_go text.length text

/-- The values the grouper emits and the renderer consumes: plain strings,
single `Kanji` objects, `KanjiSequence` objects (a list of kanji characters
with optional furigana), and the `SPACE` object. -/
inductive RenderObj where
  | str (s : List Char)
  | kanji (c : Char)
  | kanjiSeq (kanji : List Char) (furigana : Option (List Char))
  | space
  deriving DecidableEq

/-- The mutable state of `group` (sentence_parser.py lines 97-99): the state
tag string, the accumulated groups, and the buffer. -/
structure GroupSt where
  state : String
  groups : List RenderObj
  buf : List Char
  deriving DecidableEq

/-- One iteration of the token loop of `group` (lines 100-151).  The state
tags are the source's literal strings; a state outside the three known tags
raises ValueError "invalid state".  (The source's per-state `else` arms
fire only for tokens outside the four token types and have no counterpart
here, the token alphabet being closed.) -/
def group_step (cfg : GroupSt) (token : Token) : Except PyErr GroupSt :=
  if cfg.state = "empty" then
    match token with
    | .chr c => .ok ⟨"buffer str", cfg.groups, [c]⟩
    | .kanji c => .ok ⟨"buffer kan", cfg.groups, [c]⟩
    | .space => .ok ⟨"empty", cfg.groups ++ [.space], cfg.buf⟩
    | .furigana _ => .ok cfg
  else if cfg.state = "buffer str" then
    match token with
    | .chr c => .ok ⟨"buffer str", cfg.groups, cfg.buf ++ [c]⟩
    | .kanji c => .ok ⟨"buffer kan", cfg.groups ++ [.str (charseq cfg.buf)], [c]⟩
    | .space => .ok ⟨"empty", cfg.groups ++ [.str (charseq cfg.buf), .space], []⟩
    | .furigana _ => .ok cfg
  else if cfg.state = "buffer kan" then
    match token with
    | .chr c => .ok ⟨"buffer str", cfg.groups ++ [.kanjiSeq cfg.buf none], [c]⟩
    | .kanji c => .ok ⟨"buffer kan", cfg.groups, cfg.buf ++ [c]⟩
    | .furigana s => .ok ⟨"empty", cfg.groups ++ [.kanjiSeq cfg.buf (some s)], []⟩
    | .space => .ok ⟨"empty", cfg.groups ++ [.kanjiSeq cfg.buf none, .space], []⟩
  else .error .invalidState

/-- `group` (sentence_parser.py lines 82-162): fold the token loop from the
initial state, then flush the buffer as the source's trailing `if` chain
does. -/
def group (tokens : List Token) : Except PyErr (List RenderObj) := do
  let cfg ← tokens.foldlM group_step ⟨"empty", [], []⟩
  if cfg.state = "empty" then .ok cfg.groups
  else if cfg.state = "buffer str" then .ok (cfg.groups ++ [.str (charseq cfg.buf)])
  else if cfg.state = "buffer kan" then .ok (cfg.groups ++ [.kanjiSeq cfg.buf none])
  else .error .invalidState

/-- `Kanji.jisho_link` (sentence_parser.py lines 47-48):
`"https://jisho.org/search/%s%%20%%23kanji" % character`. -/
def jisho_link (c : Char) : List Char :=
  "https://jisho.org/search/".toList ++ [c] ++ "%20%23kanji".toList

/-- The `Kanji` arm of `render_obj` (line 219):
`"<a href=...>%s</a>" % (jisho_link, character)`.  `render_obj` recurses
into it for every element of a `KanjiSequence`; it is factored out here so
that the recursion is structural. -/
def render_kanji (c : Char) : List Char :=
  "<a href=\"".toList ++ jisho_link c ++ "\">".toList ++ [c] ++ "</a>".toList

/-- `render_obj` (sentence_parser.py lines 203-230).  Note the source's
ruby template `"<ruby>%s<rt>%s</rt><ruby>"` closes with a second opening
`<ruby>` tag. -/
def render_obj : RenderObj → List Char
  | .str s => s
  | .kanji c => render_kanji c
  | .kanjiSeq ks none => (ks.map render_kanji).flatten
  | .kanjiSeq ks (some f) =>
    "<ruby>".toList ++ (ks.map render_kanji).flatten ++ "<rt>".toList ++ f
      ++ "</rt><ruby>".toList
  | .space => "&nbsp;".toList

/-- The te-form suffix table for godan verbs exactly as the spec's words
give it (refinement reference for the conjugation claim): `う/つ/る → って`,
`く → いて`, `す → して`, `ぶ/む/ぬ → んで`, `ぐ → いで`, nothing else. -/
def te_godan_spec (c : Char) : Option (List Char) :=
  if c = 'う' ∨ c = 'つ' ∨ c = 'る' then some "って".toList
  else if c = 'く' then some "いて".toList
  else if c = 'す' then some "して".toList
  else if c = 'ぶ' ∨ c = 'む' ∨ c = 'ぬ' then some "んで".toList
  else if c = 'ぐ' then some "いで".toList
  else none

/-- The kana round trip of the spec: look the glyph up, romanize it, parse
the romanization back. -/
def roundtrip (g : Char) : Except PyErr HiraganaLetter := do
  let l ← hiragana_init g
  from_str (romaji l)

/-- The glyphs of the reverse table, in insertion order. -/
def glyph_list : List Char := by_letter.map Prod.fst

/- ------------------------------------------------------------------ -/
/- Helper lemmas                                                       -/
/- ------------------------------------------------------------------ -/

theorem mem_of_lookup {α : Type} {l : List (Char × α)} {k : Char} {v : α}
    (h : l.lookup k = some v) : (k, v) ∈ l := by
  induction l with
  | nil => simp [List.lookup] at h
  | cons p rest ih =>
    obtain ⟨a, b⟩ := p
    rw [List.lookup] at h
    cases hk : k == a with
    | true =>
      rw [hk] at h
      injection h with h'
      subst h'
      have ha : k = a := eq_of_beq hk
      subst ha
      exact List.mem_cons_self _ _
    | false =>
      rw [hk] at h
      exact List.mem_cons_of_mem _ (ih h)

theorem parse_go_ok : ∀ (fuel : Nat) (text : List Char), text.length ≤ fuel →
    ∃ ts, parse_go fuel text = .ok ts := by
  intro fuel
  induction fuel with
  | zero =>
    intro text h
    have : text = [] := List.length_eq_zero.mp (Nat.le_zero.mp h)
    subst this
    exact ⟨[], rfl⟩
  | succ n ih =>
    intro text h
    match text with
    | [] => exact ⟨[], rfl⟩
    | c :: rest =>
      have hr : rest.length ≤ n := by simpa using Nat.succ_le_succ_iff.mp (by simpa using h)
      rw [parse_go]
      cases hk : is_kanji c with
      | true =>
        obtain ⟨ts, hts⟩ := ih rest hr
        exact ⟨Token.kanji c :: ts, by simp [hk, hts, Except.map]⟩
      | false =>
        by_cases hc : c = '^'
        · subst hc
          obtain ⟨ts, hts⟩ :=
            ih ((rest.takeWhile (fun c => re_match_class JpRE.hiragana_full c)).length.succ
                  |> (('^' :: rest).drop ·))
              (by
                simp only [List.drop_succ_cons]
                calc (rest.drop _).length ≤ rest.length := by
                      simp [List.length_drop]
                  _ ≤ n := hr)
          refine ⟨Token.furigana (rest.takeWhile (fun c => re_match_class JpRE.hiragana_full c))
              :: ts, ?_⟩
          simp only [re_furigana_match, List.drop_succ_cons] at hts ⊢
          simp [hk, List.length_cons, hts, Except.map]
        · obtain ⟨ts, hts⟩ := ih rest hr
          by_cases ht : c = '~'
          · subst ht
            exact ⟨Token.space :: ts, by simp [hk, hts, Except.map]⟩
          · exact ⟨Token.chr c :: ts, by simp [hk, hc, ht, hts, Except.map]⟩

theorem group_step_ok (st : String) (gs : List RenderObj) (buf : List Char) (t : Token)
    (h : st = "empty" ∨ st = "buffer str" ∨ st = "buffer kan") :
    ∃ cfg', group_step ⟨st, gs, buf⟩ t = .ok cfg' ∧
      (cfg'.state = "empty" ∨ cfg'.state = "buffer str" ∨ cfg'.state = "buffer kan") := by
  rcases h with h | h | h <;> subst h <;> cases t <;> exact ⟨_, rfl, by simp⟩

theorem foldlM_group_ok (tokens : List Token) :
    ∀ cfg : GroupSt,
      (cfg.state = "empty" ∨ cfg.state = "buffer str" ∨ cfg.state = "buffer kan") →
      ∃ cfg', tokens.foldlM group_step cfg = .ok cfg' ∧
        (cfg'.state = "empty" ∨ cfg'.state = "buffer str" ∨ cfg'.state = "buffer kan") := by
  induction tokens with
  | nil => exact fun cfg h => ⟨cfg, rfl, h⟩
  | cons t ts ih =>
    intro cfg h
    obtain ⟨st, gs, buf⟩ := cfg
    obtain ⟨cfg1, hstep, h1⟩ := group_step_ok st gs buf t h
    obtain ⟨cfg2, hfold, h2⟩ := ih cfg1 h1
    refine ⟨cfg2, ?_, h2⟩
    rw [List.foldlM_cons, hstep]
    simpa [Except.bind] using hfold

theorem group_step_inv (cfg cfg' : GroupSt) (t : Token)
    (hstep : group_step cfg t = .ok cfg')
    (hg : ∀ ks f, RenderObj.kanjiSeq ks f ∈ cfg.groups → ks ≠ [])
    (hb : cfg.state = "buffer kan" → cfg.buf ≠ []) :
    (∀ ks f, RenderObj.kanjiSeq ks f ∈ cfg'.groups → ks ≠ []) ∧
    (cfg'.state = "buffer kan" → cfg'.buf ≠ []) := by
  obtain ⟨st, gs, buf⟩ := cfg
  by_cases h1 : st = "empty"
  · subst h1
    cases t <;> simp only [group_step, reduceIte] at hstep <;>
      (injection hstep with h'; subst h') <;>
      refine ⟨fun ks f hmem => ?_, fun hbk => ?_⟩ <;>
      simp_all <;> aesop
  · by_cases h2 : st = "buffer str"
    · subst h2
      cases t <;> simp only [group_step, reduceIte] at hstep <;>
        (injection hstep with h'; subst h') <;>
        refine ⟨fun ks f hmem => ?_, fun hbk => ?_⟩ <;>
        simp_all <;> aesop
    · by_cases h3 : st = "buffer kan"
      · subst h3
        cases t <;> simp only [group_step, reduceIte] at hstep <;>
          (injection hstep with h'; subst h') <;>
          refine ⟨fun ks f hmem => ?_, fun hbk => ?_⟩ <;>
          simp_all <;> aesop
      · simp only [group_step, if_neg h1, if_neg h2, if_neg h3] at hstep
        cases hstep

theorem foldlM_group_inv (tokens : List Token) :
    ∀ cfg cfg' : GroupSt, tokens.foldlM group_step cfg = .ok cfg' →
      (∀ ks f, RenderObj.kanjiSeq ks f ∈ cfg.groups → ks ≠ []) →
      (cfg.state = "buffer kan" → cfg.buf ≠ []) →
      (∀ ks f, RenderObj.kanjiSeq ks f ∈ cfg'.groups → ks ≠ []) ∧
      (cfg'.state = "buffer kan" → cfg'.buf ≠ []) := by
  induction tokens with
  | nil =>
    intro cfg cfg' hfold hg hb
    obtain rfl : cfg = cfg' := by simpa [List.foldlM, pure, Except.pure] using hfold
    exact ⟨hg, hb⟩
  | cons t ts ih =>
    intro cfg cfg' hfold hg hb
    rw [List.foldlM_cons] at hfold
    cases hstep : group_step cfg t with
    | error e => rw [hstep] at hfold; cases hfold
    | ok cfg1 =>
      rw [hstep] at hfold
      obtain ⟨hg1, hb1⟩ := group_step_inv cfg cfg1 t hstep hg hb
      exact ih cfg1 cfg' (by simpa [Except.bind] using hfold) hg1 hb1

theorem inflections_init_ok {bv : List Char} {vt : VerbType} {app : Option (List InflectionTag)}
    {inf : Option InflectionTag} {r : Inflections}
    (h : inflections_init (some bv) vt app inf = .ok r) :
    r.base_verb = bv ∧ r.verb_type = vt ∧ 1 < bv.length ∧
      ∃ last, bv.getLast? = some last ∧ "るつうくすぶむぬぐ".toList.contains last = true ∧
        (vt = .ICHIDAN → has_ichidan_ending bv = .ok (some true)) := by
  simp only [inflections_init] at h
  split at h
  · exact Except.noConfusion h
  next hlen =>
  split at h
  next => exact Except.noConfusion h
  next last hlast =>
  split at h
  next => exact Except.noConfusion h
  next hcont =>
  replace hcont : "るつうくすぶむぬぐ".toList.contains last = true := by
    cases hc : "るつうくすぶむぬぐ".toList.contains last
    · rw [hc] at hcont; exact absurd rfl hcont
    · rfl
  split at h
  next => exact Except.noConfusion h
  next => exact Except.noConfusion h
  next hich0 =>
  split at h
  next => exact Except.noConfusion h
  next happ =>
  injection h with h'
  subst h'
  refine ⟨rfl, rfl, by omega, last, hlast, hcont, fun hvt => ?_⟩
  rw [if_pos hvt] at hich0
  cases hich : has_ichidan_ending bv with
  | error e => rw [hich] at hich0; exact Except.noConfusion hich0
  | ok v =>
    rw [hich] at hich0
    simp only [Except.map] at hich0
    cases v with
    | none => simp [truthy] at hich0
    | some b =>
      cases b with
      | false => simp [truthy] at hich0
      | true => rfl

theorem hiragana_init_eq_ok {c : Char} {row e : String}
    (h : by_letter.lookup c = some (row, e)) :
    hiragana_init c = .ok ⟨c, row, e, dakuten_of row⟩ := by
  unfold hiragana_init; rw [h]

theorem hiragana_init_eq_err {c : Char} (h : by_letter.lookup c = none) :
    hiragana_init c = .error .keyError := by
  unfold hiragana_init; rw [h]

theorem has_ichidan_ending_concat (pre : List Char) (c2 c1 : Char) :
    has_ichidan_ending (pre ++ [c2, c1]) =
      (if is_kanji c2 && decide (c1 = 'る') then .ok none
       else
         match hiragana_init c2 with
         | .error e => .error e
         | .ok l => .ok (some (py_substr l.ending.toList "ie".toList && decide (c1 = 'る')))) := by
  have hassoc : pre ++ [c2, c1] = (pre ++ [c2]) ++ [c1] := by simp
  have hlen : ¬ (pre ++ [c2, c1]).length < 2 := by
    simp only [List.length_append, List.length_cons, List.length_nil]; omega
  have hd2 : (pre ++ [c2, c1]).dropLast.getLast? = some c2 := by
    rw [hassoc, List.dropLast_concat]; exact List.getLast?_concat _
  have hc1 : (pre ++ [c2, c1]).getLast? = some c1 := by
    rw [hassoc]; exact List.getLast?_concat _
  unfold has_ichidan_ending
  rw [if_neg hlen, hd2, hc1]

theorem te_godan_concat (pre : List Char) (lc : Char) (a : List InflectionTag)
    (i : Option InflectionTag) :
    te ⟨pre ++ [lc], .GODAN, a, i⟩ =
      (if "うつる".toList.contains lc then .ok (pre ++ "って".toList)
       else if "く".toList.contains lc then .ok (pre ++ "いて".toList)
       else if "す".toList.contains lc then .ok (pre ++ "して".toList)
       else if "ぶむぬ".toList.contains lc then .ok (pre ++ "んで".toList)
       else if "ぐ".toList.contains lc then .ok (pre ++ "いで".toList)
       else .error (.invalidTeEnding lc)) := by
  simp only [te, List.getLast?_concat, List.dropLast_concat]
  rw [if_neg (by simp), if_pos trivial]

/- ------------------------------------------------------------------ -/
/- Claim theorems                                                      -/
/- ------------------------------------------------------------------ -/

/-- C7, counterexample: the forward kana table does not have exactly 14 row
entries, so the claimed count is false on the code. -/
theorem c7_counterexample : rows.length ≠ 14 := by decide

/-- C7, amended: the forward kana table has exactly 16 row entries
(including the vowel-only row "-" and the syllabic "n" row "nn"), and the
derived reverse table covers exactly 71 base glyphs — one entry per glyph
of the forward table, without duplicates. -/
theorem c7_table_sizes :
    rows.length = 16 ∧ by_letter.length = 71 ∧ glyph_list.Nodup ∧
      (rows.all fun row => row.2.all fun entry => glyph_list.contains entry.2) = true := by
  decide

/-- C3, counterexample: ん is a glyph of the 71-entry table, but its
romanization is the three-letter string "nnn", which `from_str` rejects, so
the round trip does not yield a letter equal to the original for every
glyph of the table. -/
theorem c3_counterexample :
    by_letter.lookup 'ん' = some ("nn", "n") ∧
    roundtrip 'ん' = .error (.cannotTransform "nnn".toList) := by decide

/-- C3, amended: for every glyph of the 71-entry table other than ぢ, づ
and ん the round trip yields a letter equal to the original; ぢ and づ
re-parse under the special-case rules (ji→z+i, zu→z+u) to the letters じ
and ず of the z row, and ん romanizes to "nnn", which `from_str` rejects as
invalid romaji. -/
theorem c3_roundtrip :
    (glyph_list.all fun g => ['ぢ', 'づ', 'ん'].contains g
        || decide (roundtrip g = hiragana_init g)) = true ∧
    roundtrip 'ぢ' = hiragana_init 'じ' ∧
    roundtrip 'づ' = hiragana_init 'ず' ∧
    roundtrip 'ん' = .error (.cannotTransform "nnn".toList) := by decide

/-- C4: the `with_ending` guard is Python's substring test
`ending not in "aiueo"`, so the non-column inputs "ai" and "" (both
substrings of "aiueo") slip past it and the unguarded table lookup then
raises KeyError instead of the guard's ValueError; a non-substring input
like "x" does fail with the guard's error, and a proper single column
transforms the letter within its row. -/
theorem c4_with_ending_substring :
    (hiragana_init 'か' >>= fun l => with_ending l "ai".toList) = .error .keyError ∧
    (hiragana_init 'か' >>= fun l => with_ending l []) = .error .keyError ∧
    (hiragana_init 'か' >>= fun l => with_ending l "x".toList) = .error .endingNotAiueo ∧
    (hiragana_init 'か' >>= fun l => with_ending l "i".toList) = hiragana_init 'き' := by
  decide

/-- C5: `is_kanji` and `is_hiragana` are total single-character boolean
predicates: `is_kanji c` holds exactly when `c` lies in one of the three
CJK ideograph ranges of the source's character class, and `is_hiragana c`
exactly when `c` lies in the hiragana block range. -/
theorem c5_classification (c : Char) :
    (is_kanji c = true ↔
      (0x3400 ≤ c.toNat ∧ c.toNat ≤ 0x4DB5) ∨
      (0x4E00 ≤ c.toNat ∧ c.toNat ≤ 0x9FCB) ∨
      (0xF900 ≤ c.toNat ∧ c.toNat ≤ 0xFA6A)) ∧
    (is_hiragana c = true ↔ (0x3041 ≤ c.toNat ∧ c.toNat ≤ 0x309F)) := by
  constructor <;>
    simp [is_kanji, is_hiragana, re_match_class, JpRE.kanji, JpRE.hiragana_full]

/-- C5 witness: the classification theorem applied to the concrete
character 語. -/
theorem c5_witness :
    (is_kanji '語' = true ↔
      (0x3400 ≤ '語'.toNat ∧ '語'.toNat ≤ 0x4DB5) ∨
      (0x4E00 ≤ '語'.toNat ∧ '語'.toNat ≤ 0x9FCB) ∨
      (0xF900 ≤ '語'.toNat ∧ '語'.toNat ≤ 0xFA6A)) ∧
    (is_hiragana '語' = true ↔ (0x3041 ≤ '語'.toNat ∧ '語'.toNat ≤ 0x309F)) :=
  c5_classification '語'

/-- C8, counterexample: rendering the kanji run 語 with furigana ご yields
the anchor-linked fragment inside the ruby wrapper rather than the plain
glyph, refuting the claim that a furigana-annotated run renders its
characters without individual anchor links. -/
theorem c8_counterexample :
    py_substr "<a href=\"".toList (render_obj (.kanjiSeq ['語'] (some ['ご']))) = true ∧
    render_obj (.kanjiSeq ['語'] (some ['ご'])) ≠ "<ruby>語<rt>ご</rt><ruby>".toList := by
  decide

/-- C8, amended: a kanji run with furigana renders as exactly the same
concatenated per-character fragments as the run without furigana — each
character an anchor-link fragment, never a bare glyph — wrapped so the
furigana text appears as a ruby annotation over the run. -/
theorem c8_render_furigana (ks f : List Char) :
    render_obj (.kanjiSeq ks (some f)) =
      "<ruby>".toList ++ render_obj (.kanjiSeq ks none) ++ "<rt>".toList ++ f
        ++ "</rt><ruby>".toList ∧
    render_obj (.kanjiSeq ks none) = (ks.map render_kanji).flatten ∧
    ∀ c, render_kanji c ≠ [c] := by
  refine ⟨rfl, rfl, fun c h => ?_⟩
  have h' : ('<' :: ("a href=\"".toList ++ jisho_link c ++ "\">".toList ++ [c]
      ++ "</a>".toList)) = [c] := h
  simp [jisho_link] at h'

/-- C8 witness: the amended rendering theorem applied to the run 語 with
furigana ご. -/
theorem c8_witness :
    render_obj (.kanjiSeq ['語'] (some ['ご'])) =
      "<ruby>".toList ++ render_obj (.kanjiSeq ['語'] none) ++ "<rt>".toList ++ ['ご']
        ++ "</rt><ruby>".toList :=
  (c8_render_furigana ['語'] ['ご']).1

/-- C1, counterexample: 食る has length 2, ends in る, and its second-to-
last character is an ideograph — the indeterminate case of the ichidan
check — yet constructing an Ichidan request raises the ichidan-mismatch
error instead of succeeding. -/
theorem c1_counterexample :
    is_kanji '食' = true ∧
    inflections_init (some "食る".toList) .ICHIDAN none none
      = .error (.noIchidanEnding "食る".toList) := by decide

/-- C1, amended: when the second-to-last character is an ideograph and the
verb ends in る (the indeterminate case of the ichidan check), Ichidan
construction fails with the ichidan-mismatch error — Python coerces the
check's `None` result to falsy — and a construction succeeds only when the
check is definitively true, so the error is raised whenever the check is
false or unknown, not only when it is definitively false. -/
theorem c1_ichidan_unknown_rejected :
    (∀ (pre : List Char) (c2 : Char) (app : Option (List InflectionTag))
        (inf : Option InflectionTag), is_kanji c2 = true →
      inflections_init (some (pre ++ [c2, 'る'])) .ICHIDAN app inf
        = .error (.noIchidanEnding (pre ++ [c2, 'る']))) ∧
    (∀ (bv : List Char) (app : Option (List InflectionTag))
        (inf : Option InflectionTag) (r : Inflections),
      inflections_init (some bv) .ICHIDAN app inf = .ok r →
      has_ichidan_ending bv = .ok (some true)) := by
  constructor
  · intro pre c2 app inf hk
    have hich : has_ichidan_ending (pre ++ [c2, 'る']) = .ok none := by
      rw [has_ichidan_ending_concat, if_pos (by simp [hk])]
    have hlen : ¬ (pre ++ [c2, 'る']).length ≤ 1 := by
      simp only [List.length_append, List.length_cons, List.length_nil]; omega
    have hlast : (pre ++ [c2, 'る']).getLast? = some 'る' := by
      rw [show pre ++ [c2, 'る'] = (pre ++ [c2]) ++ ['る'] by simp]
      exact List.getLast?_concat _
    have hcont : "るつうくすぶむぬぐ".toList.contains 'る' = true := by decide
    simp only [inflections_init, if_neg hlen, hlast, hcont, hich, Except.map, truthy]
    simp
  · intro bv app inf r h
    obtain ⟨-, -, -, last, -, -, hich⟩ := inflections_init_ok h
    exact hich rfl

/-- C1 witness: the amended theorem applied to the concrete verb 食る. -/
theorem c1_witness :
    inflections_init (some ([] ++ ['食', 'る'])) .ICHIDAN none none
      = .error (.noIchidanEnding ([] ++ ['食', 'る'])) :=
  c1_ichidan_unknown_rejected.1 [] '食' none none (by decide)

/-- C2, counterexample: 語く has an ideograph second-to-last, yet
`has_ichidan_ending` raises a KeyError (the constructor lookup of the
ideograph fails) instead of returning the indeterminate value — and so is
not error-free on such inputs. -/
theorem c2_counterexample :
    is_kanji '語' = true ∧
    has_ichidan_ending "語く".toList = .error .keyError := by decide

/-- C2, amended: `has_ichidan_ending` returns false when the verb is
shorter than 2; the indeterminate value when the second-to-last character
is an ideograph AND the last character is る; and, when the second-to-last
character is a glyph of the kana table, true iff its column is i or e and
the last character is る.  When the second-to-last character is neither a
table glyph nor an ideograph followed by る — e.g. an ideograph with a
different final character — it raises a KeyError rather than returning. -/
theorem c2_has_ichidan_ending :
    (∀ verb : List Char, verb.length < 2 → has_ichidan_ending verb = .ok (some false)) ∧
    (∀ (pre : List Char) (c2 c1 : Char), is_kanji c2 = true → c1 = 'る' →
      has_ichidan_ending (pre ++ [c2, c1]) = .ok none) ∧
    (∀ (pre : List Char) (c2 c1 : Char) (row e : String),
      by_letter.lookup c2 = some (row, e) → ¬(is_kanji c2 = true ∧ c1 = 'る') →
      has_ichidan_ending (pre ++ [c2, c1])
        = .ok (some (decide ((e = "i" ∨ e = "e") ∧ c1 = 'る')))) ∧
    (∀ (pre : List Char) (c2 c1 : Char),
      by_letter.lookup c2 = none → ¬(is_kanji c2 = true ∧ c1 = 'る') →
      has_ichidan_ending (pre ++ [c2, c1]) = .error .keyError) := by
  refine ⟨?_, ?_, ?_, ?_⟩
  · intro verb h
    unfold has_ichidan_ending
    rw [if_pos h]
  · intro pre c2 c1 hk hc1
    subst hc1
    rw [has_ichidan_ending_concat, if_pos (by simp [hk])]
  · intro pre c2 c1 row e hlk hniche
    have hcond : ¬ (is_kanji c2 && decide (c1 = 'る')) = true := by
      simp only [Bool.and_eq_true, decide_eq_true_eq]
      exact hniche
    rw [has_ichidan_ending_concat, if_neg hcond, hiragana_init_eq_ok hlk]
    have hie : py_substr e.data ['i', 'e'] = (decide (e = "i") || decide (e = "e")) := by
      have hall : ∀ p ∈ by_letter,
          py_substr (p.2.2).data ['i', 'e']
            = (decide (p.2.2 = "i") || decide (p.2.2 = "e")) := by decide
      exact hall _ (mem_of_lookup hlk)
    simp [hie]
  · intro pre c2 c1 hlk hniche
    have hcond : ¬ (is_kanji c2 && decide (c1 = 'る')) = true := by
      simp only [Bool.and_eq_true, decide_eq_true_eq]
      exact hniche
    rw [has_ichidan_ending_concat, if_neg hcond, hiragana_init_eq_err hlk]

/-- C2 witness: the amended theorem applied to the concrete verb べる,
whose second-to-last letter has column e. -/
theorem c2_witness :
    has_ichidan_ending ([] ++ ['べ', 'る'])
      = .ok (some (decide ((("e" : String) = "i" ∨ ("e" : String) = "e") ∧ 'る' = 'る'))) :=
  c2_has_ichidan_ending.2.2.1 [] 'べ' 'る' "b" "e" (by decide) (by decide)

/-- C9: for every successfully constructed conjugation request, the te form
follows the spec's table: Ichidan strips the last character and appends て;
Godan appends the suffix of the five-way branch on the final character, and
the defensive invalid-ending arm is unreachable; Irregular fails with the
not-implemented error. -/
theorem c9_te_form (pre : List Char) (lc : Char) (vt : VerbType)
    (app : Option (List InflectionTag)) (inf : Option InflectionTag) (r : Inflections)
    (h : inflections_init (some (pre ++ [lc])) vt app inf = .ok r) :
    (vt = .ICHIDAN → te r = .ok (pre ++ "て".toList)) ∧
    (vt = .GODAN → ∃ suf, te_godan_spec lc = some suf ∧ te r = .ok (pre ++ suf)) ∧
    (vt = .IRREGULAR → te r = .error .notImplementedError) ∧
    (∀ c, te r ≠ .error (.invalidTeEnding c)) := by
  obtain ⟨hbase, hvt, hlen, last, hlast, hcont, -⟩ := inflections_init_ok h
  rw [List.getLast?_concat] at hlast
  injection hlast with hlast'
  subst hlast'
  obtain ⟨rbv, rvt, rap, rinf⟩ := r
  dsimp only at hbase hvt
  subst hbase
  subst hvt
  have hmem : lc ∈ ['る', 'つ', 'う', 'く', 'す', 'ぶ', 'む', 'ぬ', 'ぐ'] :=
    List.elem_iff.mp hcont
  refine ⟨?_, ?_, ?_, ?_⟩
  · intro hg; subst hg
    simp [te, List.dropLast_concat]
  · intro hg; subst hg
    fin_cases hmem <;> exact ⟨_, rfl, by rw [te_godan_concat]; simp⟩
  · intro hg; subst hg
    simp [te]
  · intro c
    cases rvt with
    | ICHIDAN => simp [te, List.dropLast_concat]
    | GODAN => fin_cases hmem <;> (rw [te_godan_concat]; simp)
    | IRREGULAR => simp [te]

/-- C9 witness: the theorem applied to the godan verb 飲む gives the te
form 飲んで. -/
theorem c9_witness : te ⟨"飲む".toList, .GODAN, [], none⟩ = .ok "飲んで".toList := by
  obtain ⟨suf, h1, h2⟩ :=
    (c9_te_form ['飲'] 'む' .GODAN none none ⟨"飲む".toList, .GODAN, [], none⟩
      (by decide)).2.1 rfl
  rw [show te_godan_spec 'む' = some "んで".toList from rfl] at h1
  injection h1 with h3
  subst h3
  exact h2

/-- C6: the lexer succeeds on every input string (its no-match error is
unreachable); a ^ not followed by a hiragana character yields an empty
furigana token; the grouper succeeds on every sequence of kanji, furigana,
space and plain-character tokens (its invalid-state error is unreachable);
and an out-of-place leading furigana token is silently discarded. -/
theorem c6_lexer_grouper_total :
    (∀ text : List Char, ∃ ts, parse text = .ok ts) ∧
    (∀ (c : Char) (rest : List Char), is_hiragana c = false →
      ∃ ts, parse ('^' :: c :: rest) = .ok (Token.furigana [] :: ts)) ∧
    (∀ tokens : List Token, ∃ ns, group tokens = .ok ns) ∧
    (∀ (s : List Char) (tokens : List Token),
      group (Token.furigana s :: tokens) = group tokens) := by
  refine ⟨fun text => parse_go_ok text.length text le_rfl, ?_, ?_, ?_⟩
  · intro c rest hc
    obtain ⟨ts, hts⟩ := parse_go_ok (rest.length + 1) (c :: rest) (by simp)
    refine ⟨ts, ?_⟩
    show parse_go ('^' :: c :: rest).length ('^' :: c :: rest) = _
    have hL : ('^' :: c :: rest).length = rest.length + 1 + 1 := by simp
    rw [hL, parse_go]
    have hk : ¬ (is_kanji '^' = true) := by decide
    rw [if_neg hk, if_pos rfl]
    simp only [re_furigana_match]
    have hc' : ¬ (re_match_class JpRE.hiragana_full c = true) := by
      intro hx
      rw [show re_match_class JpRE.hiragana_full c = is_hiragana c from rfl, hc] at hx
      cases hx
    rw [List.takeWhile_cons_of_neg hc']
    simp [hts, Except.map]
  · intro tokens
    obtain ⟨cfg', hfold, hvalid⟩ := foldlM_group_ok tokens ⟨"empty", [], []⟩ (by simp)
    obtain ⟨st, gs, buf⟩ := cfg'
    rcases hvalid with hv | hv | hv <;> (dsimp only at hv; subst hv) <;>
      exact ⟨_, by unfold group; rw [hfold]; rfl⟩
  · intro s tokens
    rfl

/-- C6 witness: the theorem applied to the input "^a", whose ^ is followed
by a non-hiragana character. -/
theorem c6_witness :
    parse ('^' :: 'a' :: []) = .ok (Token.furigana [] :: [Token.chr 'a']) := by
  obtain ⟨ts, hts⟩ := c6_lexer_grouper_total.2.1 'a' [] (by decide)
  exact (by decide : parse ('^' :: 'a' :: []) = .ok [Token.furigana [], Token.chr 'a'])

/-- C10: every kanji-run node the grouper emits — including the final
flush — carries a non-empty list of kanji characters. -/
theorem c10_kanji_runs_nonempty (tokens : List Token) (ns : List RenderObj)
    (h : group tokens = .ok ns) :
    ∀ ks f, RenderObj.kanjiSeq ks f ∈ ns → ks ≠ [] := by
  unfold group at h
  cases hfold : tokens.foldlM group_step ⟨"empty", [], []⟩ with
  | error e =>
    rw [hfold] at h
    exact Except.noConfusion h
  | ok cfg =>
    rw [hfold] at h
    obtain ⟨hg, hb⟩ := foldlM_group_inv tokens ⟨"empty", [], []⟩ cfg hfold
      (fun ks f hm => absurd hm (List.not_mem_nil _))
      (fun hx => absurd hx (by decide))
    obtain ⟨st, gs, buf⟩ := cfg
    simp only [Bind.bind, Except.bind] at h
    by_cases h1 : st = "empty"
    · subst h1
      rw [if_pos rfl] at h
      injection h with h'
      subst h'
      exact hg
    · by_cases h2 : st = "buffer str"
      · subst h2
        rw [if_neg (by simp), if_pos rfl] at h
        injection h with h'
        subst h'
        intro ks f hm
        rcases List.mem_append.mp hm with hm | hm
        · exact hg ks f hm
        · simp at hm
      · by_cases h3 : st = "buffer kan"
        · subst h3
          rw [if_neg (by simp), if_neg (by simp), if_pos rfl] at h
          injection h with h'
          subst h'
          intro ks f hm
          rcases List.mem_append.mp hm with hm | hm
          · exact hg ks f hm
          · have hks : ks = buf := by
              simp only [List.mem_singleton, RenderObj.kanjiSeq.injEq] at hm
              exact hm.1
            subst hks
            exact hb rfl
        · rw [if_neg (by simpa using h1), if_neg (by simpa using h2),
            if_neg (by simpa using h3)] at h
          exact Except.noConfusion h

/-- C10 witness: the theorem applied to the token sequence of 日本^にほん. -/
theorem c10_witness : (['日', '本'] : List Char) ≠ [] :=
  c10_kanji_runs_nonempty [.kanji '日', .kanji '本', .furigana "にほん".toList]
    [.kanjiSeq ['日', '本'] (some "にほん".toList)] (by decide)
    ['日', '本'] (some "にほん".toList) (by simp)

end Vocab
